import Mathlib

/-!
A verification development for the `undo_log` module: the `VecLog` undo log,
the `NoUndo` discarding log, snapshot tokens, and the rollback/commit
operations, shallowly embedded as pure Lean functions.  Machine state is
explicit: the `Vec<T>` backing store is a `List T` kept in push order, the
`usize` counter is a `Nat`.  Operations guarded by `assert!` in the source
return `Option`, with `none` marking an assertion failure (a Rust panic);
the out-of-bounds slice in `actions_since_snapshot` is likewise an `Option`.
-/

/-- Snapshot token: records the length of the undo log at mint time
(`Snapshot { undo_len }` in the source). -/
structure Snapshot where
  undo_len : Nat
deriving DecidableEq, Repr

/-- The `Rollback<U>` trait: a reversal target that can undo one action.
The Rust method mutates `self`; here it returns the updated target. -/
structure Rollback (R T : Type) where
  reverse : R → T → R

/-- The `VecLog<T>` undo log: a growable event sequence (push order) plus the
open-snapshot counter. -/
structure VecLog (T : Type) where
  log : List T
  num_open_snapshots : Nat
deriving DecidableEq, Repr

namespace VecLog

/-- `Default::default()`: empty log, counter 0. -/
def empty (T : Type) : VecLog T := { log := [], num_open_snapshots := 0 }

/-- `UndoLogs::push` for `VecLog`: `self.log.push(undo)`. -/
def push {T : Type} (s : VecLog T) (undo : T) : VecLog T :=
  { s with log := s.log ++ [undo] }

/-- `UndoLogs::clear` for `VecLog`: clears the log and zeroes the counter. -/
def clear {T : Type} (_s : VecLog T) : VecLog T :=
  { log := [], num_open_snapshots := 0 }

/-- `UndoLogs::in_snapshot` default body `num_open_snapshots() > 0`, with
`VecLog`'s overriding `num_open_snapshots`. -/
def in_snapshot {T : Type} (s : VecLog T) : Bool :=
  decide (0 < s.num_open_snapshots)

/-- `UndoLogs::extend` default body: pushes each event in order. -/
def extend {T : Type} (s : VecLog T) (undos : List T) : VecLog T :=
  undos.foldl push s

/-- `Snapshots::has_changes` as overridden by `VecLog`:
`self.log.len() > snapshot.undo_len`. -/
def has_changes {T : Type} (s : VecLog T) (snap : Snapshot) : Bool :=
  decide (snap.undo_len < s.log.length)

/-- `Snapshots::actions_since_snapshot` for `VecLog`:
`&self.log[snapshot.undo_len..]`.  Rust slicing panics when the start
index exceeds the length, hence the `Option`. -/
def actions_since_snapshot {T : Type} (s : VecLog T) (snap : Snapshot) :
    Option (List T) :=
  if snap.undo_len ≤ s.log.length then some (s.log.drop snap.undo_len)
  else none

/-- The `Snapshots::has_changes` default body
`!self.actions_since_snapshot(snapshot).is_empty()`, kept separately so it
can be compared against `VecLog`'s override; it inherits the slice's
partiality. -/
def has_changes_default {T : Type} (s : VecLog T) (snap : Snapshot) :
    Option Bool :=
  (s.actions_since_snapshot snap).map (fun acts => !acts.isEmpty)

/-- `Snapshots::start_snapshot` for `VecLog`: bumps the counter and returns a
token recording the current log length. -/
def start_snapshot {T : Type} (s : VecLog T) : Snapshot × VecLog T :=
  (⟨s.log.length⟩, { s with num_open_snapshots := s.num_open_snapshots + 1 })

/-- `VecLog::assert_open_snapshot`: both `assert!` conditions. -/
def assert_open_snapshot {T : Type} (s : VecLog T) (snap : Snapshot) : Bool :=
  decide (snap.undo_len ≤ s.log.length) && decide (0 < s.num_open_snapshots)

end VecLog

/-- The `while self.log.len() > snapshot.undo_len` loop of
`VecLog::rollback_to`: pops the last event and feeds it to the reversal
target, until the log has shrunk back to `undoLen`.  Returns the truncated
log and the final target. -/
def rollbackLoop {T R : Type} (rb : Rollback R T) (undoLen : Nat)
    (log : List T) (r : R) : List T × R :=
  if h : undoLen < log.length then
    have hne : log ≠ [] :=
      List.ne_nil_of_length_pos (Nat.lt_of_le_of_lt (Nat.zero_le _) h)
    rollbackLoop rb undoLen log.dropLast (rb.reverse r (log.getLast hne))
  else (log, r)
termination_by log.length
decreasing_by
  simp only [List.length_dropLast]
  omega

namespace VecLog

/-- `Snapshots::rollback_to` for `VecLog`.  `values` is the lazy
zero-argument constructor of the reversal target; the returned `Option R`
is `some` exactly when the constructor was invoked (its single call site is
inside the `log.len() > undo_len` branch).  `none` overall is an assertion
failure. -/
def rollback_to {T R : Type} (s : VecLog T) (values : Unit → R)
    (rb : Rollback R T) (snap : Snapshot) : Option (VecLog T × Option R) :=
  if s.assert_open_snapshot snap then
    if snap.undo_len < s.log.length then
      let res := rollbackLoop rb snap.undo_len s.log (values ())
      some ({ log := res.1, num_open_snapshots := s.num_open_snapshots - 1 },
            some res.2)
    else
      some ({ s with num_open_snapshots := s.num_open_snapshots - 1 }, none)
  else none

/-- `Snapshots::commit` for `VecLog`: at the root snapshot (counter 1) it
asserts `undo_len == 0` and clears the log; otherwise it leaves the log
untouched.  Either way the counter drops by 1.  `none` is an assertion
failure. -/
def commit {T : Type} (s : VecLog T) (snap : Snapshot) : Option (VecLog T) :=
  if s.assert_open_snapshot snap then
    if s.num_open_snapshots = 1 then
      if snap.undo_len = 0 then
        some { log := [], num_open_snapshots := s.num_open_snapshots - 1 }
      else none
    else some { s with num_open_snapshots := s.num_open_snapshots - 1 }
  else none

end VecLog

/-- `pub struct NoUndo;` — the discarding log has no state at all. -/
structure NoUndo where
deriving DecidableEq, Repr

namespace NoUndo

/-- `UndoLogs::num_open_snapshots` for `NoUndo`: always 0. -/
def num_open_snapshots (_s : NoUndo) : Nat := 0

/-- `UndoLogs::push` for `NoUndo`: discards the event, state unchanged. -/
def push {T : Type} (s : NoUndo) (_undo : T) : NoUndo := s

/-- `UndoLogs::clear` for `NoUndo`: does nothing. -/
def clear (s : NoUndo) : NoUndo := s

/-- `UndoLogs::in_snapshot` default body over `NoUndo`'s
`num_open_snapshots`. -/
def in_snapshot (s : NoUndo) : Bool :=
  decide (0 < s.num_open_snapshots)

/-- `UndoLogs::extend` default body over `NoUndo`'s `push`. -/
def extend {T : Type} (s : NoUndo) (undos : List T) : NoUndo :=
  undos.foldl push s

end NoUndo

/-! ### Helper lemmas -/

/-- Closed form of the rollback loop: the log is truncated to `undoLen`
and the popped suffix is folded into the target last-pushed-first. -/
theorem rollbackLoop_eq {T R : Type} (rb : Rollback R T) (undoLen : Nat) :
    ∀ (log : List T) (r : R), undoLen ≤ log.length →
      rollbackLoop rb undoLen log r =
        (log.take undoLen, ((log.drop undoLen).reverse).foldl rb.reverse r) := by
  intro log
  induction log using List.reverseRecOn with
  | nil =>
    intro r h
    rw [rollbackLoop]
    simp at h
    simp [h]
  | append_singleton l a ih =>
    intro r h
    rw [rollbackLoop]
    by_cases h' : undoLen < (l ++ [a]).length
    · simp only [h', dif_pos]
      have h'' : undoLen ≤ l.length := by simp at h'; omega
      rw [List.dropLast_concat, List.getLast_concat]
      rw [ih _ h'']
      rw [List.take_append_of_le_length h'', List.drop_append_of_le_length h'']
      simp
    · simp only [h', dif_neg, not_false_iff]
      have h'' : undoLen = (l ++ [a]).length := by simp at h h' ⊢; omega
      subst h''
      simp

/-- Closed form of `rollback_to` under its asserted precondition. -/
theorem rollback_to_eq {T R : Type} (s : VecLog T) (values : Unit → R)
    (rb : Rollback R T) (snap : Snapshot)
    (h1 : snap.undo_len ≤ s.log.length) (h2 : 0 < s.num_open_snapshots) :
    s.rollback_to values rb snap =
      some ({ log := s.log.take snap.undo_len,
              num_open_snapshots := s.num_open_snapshots - 1 },
            if snap.undo_len < s.log.length then
              some (((s.log.drop snap.undo_len).reverse).foldl rb.reverse (values ()))
            else none) := by
  have hass : s.assert_open_snapshot snap = true := by
    simp [VecLog.assert_open_snapshot, h1, h2]
  rw [VecLog.rollback_to, if_pos hass]
  by_cases h' : snap.undo_len < s.log.length
  · simp only [h', if_pos]
    rw [rollbackLoop_eq _ _ _ _ h1]
  · simp only [h', if_neg, not_false_iff]
    have he : snap.undo_len = s.log.length := by omega
    simp [he]

/-- Folding the trace-recording reversal target just collects the events in
the order they were handed over. -/
theorem foldl_snoc_eq {T : Type} (l : List T) :
    ∀ (l0 : List T), l.foldl (fun acc e => acc ++ [e]) l0 = l0 ++ l := by
  induction l with
  | nil => intro l0; simp
  | cons a l ih => intro l0; simp [ih]

/-- `extend` appends the given events in order and leaves the counter
alone. -/
theorem VecLog.extend_eq {T : Type} (undos : List T) :
    ∀ (s : VecLog T), s.extend undos =
      { log := s.log ++ undos, num_open_snapshots := s.num_open_snapshots } := by
  induction undos with
  | nil => intro s; simp [VecLog.extend]
  | cons a l ih =>
    intro s
    show VecLog.extend (VecLog.push s a) l = _
    rw [ih]
    simp [VecLog.push]

/-! ### Claim theorems -/

/-- C1: under the asserted precondition, `rollback_to` truncates the log back
to the token's recorded length, hands the popped events to the reversal
target in strict reverse push order (witnessed both by the generic fold over
any target and by the trace-recording target, which receives exactly the
suffix reversed), leaves the events before the recorded length unchanged,
and decrements the open-snapshot counter by 1. -/
theorem C1_rollback_correct {T : Type} (s : VecLog T) (snap : Snapshot)
    (h1 : snap.undo_len ≤ s.log.length) (h2 : 0 < s.num_open_snapshots) :
    (∀ (R : Type) (values : Unit → R) (rb : Rollback R T),
        s.rollback_to values rb snap =
          some ({ log := s.log.take snap.undo_len,
                  num_open_snapshots := s.num_open_snapshots - 1 },
                if snap.undo_len < s.log.length then
                  some (((s.log.drop snap.undo_len).reverse).foldl rb.reverse
                          (values ()))
                else none)) ∧
    s.rollback_to (fun _ => ([] : List T)) ⟨fun acc e => acc ++ [e]⟩ snap =
      some ({ log := s.log.take snap.undo_len,
              num_open_snapshots := s.num_open_snapshots - 1 },
            if snap.undo_len < s.log.length then
              some ((s.log.drop snap.undo_len).reverse)
            else none) ∧
    (s.log.take snap.undo_len).length = snap.undo_len ∧
    (∀ i, i < snap.undo_len → (s.log.take snap.undo_len)[i]? = s.log[i]?) := by
  refine ⟨fun R values rb => rollback_to_eq s values rb snap h1 h2, ?_, ?_, ?_⟩
  · rw [rollback_to_eq s _ _ snap h1 h2]
    by_cases h' : snap.undo_len < s.log.length
    · simp only [h', if_pos]
      rw [foldl_snoc_eq]
      simp
    · simp [h']
  · simp [h1]
  · intro i hi
    exact List.getElem?_take_of_lt hi

/-- Witness for C1: three events, roll back past the last two; the trace
target receives them most-recent-first and the log keeps its prefix. -/
theorem C1_rollback_correct_witness :
    (Snapshot.mk 1).undo_len ≤ (VecLog.mk [10, 20, 30] 1).log.length ∧
    0 < (VecLog.mk ([10, 20, 30] : List Nat) 1).num_open_snapshots ∧
    (VecLog.mk [10, 20, 30] 1).rollback_to (fun _ => ([] : List Nat))
        ⟨fun acc e => acc ++ [e]⟩ ⟨1⟩ = some (⟨[10], 0⟩, some [30, 20]) := by
  refine ⟨by decide, by decide, ?_⟩
  have h := (C1_rollback_correct (VecLog.mk [10, 20, 30] 1) ⟨1⟩
      (by decide) (by decide)).2.1
  simpa using h

/-- C2: under the asserted precondition, committing with more than one open
snapshot leaves the log (length and every stored event) untouched and only
decrements the counter; committing the root snapshot (counter exactly 1)
succeeds exactly when the token's recorded length is 0, in which case the
log is emptied and the counter drops to 0, and otherwise trips the
`assert!`. -/
theorem C2_commit_behavior {T : Type} (s : VecLog T) (snap : Snapshot)
    (h1 : snap.undo_len ≤ s.log.length) (h2 : 0 < s.num_open_snapshots) :
    (1 < s.num_open_snapshots →
      s.commit snap = some { log := s.log,
                             num_open_snapshots := s.num_open_snapshots - 1 }) ∧
    (s.num_open_snapshots = 1 →
      (snap.undo_len = 0 →
        s.commit snap = some { log := [], num_open_snapshots := 0 }) ∧
      (snap.undo_len ≠ 0 → s.commit snap = none)) := by
  have hass : s.assert_open_snapshot snap = true := by
    simp [VecLog.assert_open_snapshot, h1, h2]
  constructor
  · intro hgt
    have hne : ¬ s.num_open_snapshots = 1 := by omega
    rw [VecLog.commit, if_pos hass, if_neg hne]
  · intro hone
    constructor
    · intro hz
      rw [VecLog.commit, if_pos hass, if_pos hone, if_pos hz, hone]
    · intro hnz
      rw [VecLog.commit, if_pos hass, if_pos hone, if_neg hnz]

/-- Witness for C2: committing an inner token (counter 2) keeps the stored
event; committing a root token with nonzero recorded length fails. -/
theorem C2_commit_behavior_witness :
    ((Snapshot.mk 1).undo_len ≤ (VecLog.mk [5] 2).log.length ∧
     0 < (VecLog.mk ([5] : List Nat) 2).num_open_snapshots ∧
     (VecLog.mk [5] 2).commit ⟨1⟩ = some (VecLog.mk [5] 1)) ∧
    ((VecLog.mk ([5] : List Nat) 1).commit ⟨1⟩ = none) :=
  ⟨⟨by decide, by decide,
    (C2_commit_behavior (VecLog.mk [5] 2) ⟨1⟩ (by decide) (by decide)).1
      (by decide)⟩,
   ((C2_commit_behavior (VecLog.mk [5] 1) ⟨1⟩ (by decide) (by decide)).2
      (by decide)).2 (by decide)⟩

/-- C3: rolling back a token minted at the current log length performs no
reversal work: the reversal-target constructor is never invoked (the result
carries `none` and is independent of the supplied constructor), the log is
unchanged, and the only effect is decrementing the open-snapshot counter
by 1.  The constructor has a single call site, guarded by
`log.len() > undo_len`, so it runs at most once per call. -/
theorem C3_rollback_noop {T R : Type} (s : VecLog T) (snap : Snapshot)
    (h1 : snap.undo_len = s.log.length) (h2 : 0 < s.num_open_snapshots) :
    (∀ (values : Unit → R) (rb : Rollback R T),
        s.rollback_to values rb snap =
          some ({ log := s.log,
                  num_open_snapshots := s.num_open_snapshots - 1 }, none)) ∧
    (∀ (v1 v2 : Unit → R) (rb : Rollback R T),
        s.rollback_to v1 rb snap = s.rollback_to v2 rb snap) := by
  have key : ∀ (values : Unit → R) (rb : Rollback R T),
      s.rollback_to values rb snap =
        some ({ log := s.log,
                num_open_snapshots := s.num_open_snapshots - 1 }, none) := by
    intro values rb
    rw [rollback_to_eq s values rb snap (le_of_eq h1) h2]
    have h' : ¬ snap.undo_len < s.log.length := by omega
    simp [h', h1]
  exact ⟨key, fun v1 v2 rb => by rw [key v1 rb, key v2 rb]⟩

/-- Witness for C3: a token minted at length 2 rolled back on a length-2 log
leaves the log alone and constructs no target. -/
theorem C3_rollback_noop_witness :
    (Snapshot.mk 2).undo_len = (VecLog.mk [1, 2] 3).log.length ∧
    0 < (VecLog.mk ([1, 2] : List Nat) 3).num_open_snapshots ∧
    (VecLog.mk [1, 2] 3).rollback_to (fun _ => (7 : Nat)) ⟨fun r _ => r⟩ ⟨2⟩ =
      some (⟨[1, 2], 2⟩, none) :=
  ⟨by decide, by decide,
   (C3_rollback_noop (VecLog.mk [1, 2] 3) ⟨2⟩ (by decide) (by decide)).1
     (fun _ => (7 : Nat)) ⟨fun r _ => r⟩⟩

/-- C4: for a token whose recorded length is at most the log length,
`VecLog`'s overriding `has_changes` agrees with the trait's default
(`!actions_since_snapshot(..).is_empty()`), and both are equivalent to the
log having grown strictly past the token's recorded length, i.e. to
`actions_since_snapshot` being non-empty. -/
theorem C4_has_changes_iff {T : Type} (s : VecLog T) (snap : Snapshot)
    (h : snap.undo_len ≤ s.log.length) :
    ∃ acts : List T,
      s.actions_since_snapshot snap = some acts ∧
      (s.has_changes snap = true ↔ acts ≠ []) ∧
      s.has_changes_default snap = some (s.has_changes snap) ∧
      (s.has_changes snap = true ↔ snap.undo_len < s.log.length) := by
  refine ⟨s.log.drop snap.undo_len, ?_, ?_, ?_, ?_⟩
  · simp [VecLog.actions_since_snapshot, h]
  · simp only [VecLog.has_changes, decide_eq_true_eq]
    rw [← List.length_pos_iff_ne_nil, List.length_drop]
    omega
  · simp only [VecLog.has_changes_default, VecLog.actions_since_snapshot,
      if_pos h, Option.map_some', Option.some.injEq, VecLog.has_changes]
    rcases Nat.lt_or_ge snap.undo_len s.log.length with h' | h'
    · have : s.log.drop snap.undo_len ≠ [] := by
        rw [← List.length_pos_iff_ne_nil, List.length_drop]; omega
      simp [List.isEmpty_iff, this, h']
    · have he : snap.undo_len = s.log.length := by omega
      simp [he]
  · simp [VecLog.has_changes]

/-- Witness for C4: one event past the token makes all three formulations
agree on `true`. -/
theorem C4_has_changes_iff_witness :
    (Snapshot.mk 1).undo_len ≤ (VecLog.mk [8, 9] 1).log.length ∧
    ∃ acts : List Nat,
      (VecLog.mk [8, 9] 1).actions_since_snapshot ⟨1⟩ = some acts ∧
      ((VecLog.mk [8, 9] 1).has_changes ⟨1⟩ = true ↔ acts ≠ []) ∧
      (VecLog.mk [8, 9] 1).has_changes_default ⟨1⟩ =
        some ((VecLog.mk [8, 9] 1).has_changes ⟨1⟩) ∧
      ((VecLog.mk [8, 9] 1).has_changes ⟨1⟩ = true ↔
        (Snapshot.mk 1).undo_len < (VecLog.mk [8, 9] 1).log.length) :=
  ⟨by decide, C4_has_changes_iff (VecLog.mk [8, 9] 1) ⟨1⟩ (by decide)⟩

/-- C6: `clear` always succeeds, empties the log, and resets the
open-snapshot counter to 0, whatever the prior state. -/
theorem C6_clear {T : Type} (s : VecLog T) :
    (s.clear).log = [] ∧ (s.clear).num_open_snapshots = 0 :=
  ⟨rfl, rfl⟩

/-- C7: `rollback_to` fails (panics) exactly when the log is shorter than the
token's recorded length or no snapshot is open; `commit` fails exactly under
those conditions or when the root snapshot's recorded length is nonzero;
`push`, `clear`, and `start_snapshot` are total and always produce their
stated successful results. -/
theorem C7_failure_conditions {T R : Type} (s : VecLog T) (snap : Snapshot)
    (values : Unit → R) (rb : Rollback R T) :
    (s.rollback_to values rb snap = none ↔
      s.log.length < snap.undo_len ∨ s.num_open_snapshots = 0) ∧
    (s.commit snap = none ↔
      s.log.length < snap.undo_len ∨ s.num_open_snapshots = 0 ∨
        (s.num_open_snapshots = 1 ∧ snap.undo_len ≠ 0)) ∧
    (∀ e, s.push e = { log := s.log ++ [e],
                       num_open_snapshots := s.num_open_snapshots }) ∧
    s.clear = { log := [], num_open_snapshots := 0 } ∧
    s.start_snapshot = (⟨s.log.length⟩,
      { log := s.log, num_open_snapshots := s.num_open_snapshots + 1 }) := by
  have hiff : s.assert_open_snapshot snap = true ↔
      (snap.undo_len ≤ s.log.length ∧ 0 < s.num_open_snapshots) := by
    simp [VecLog.assert_open_snapshot]
  refine ⟨?_, ?_, fun e => rfl, rfl, rfl⟩
  · rw [VecLog.rollback_to]
    by_cases hass : s.assert_open_snapshot snap = true
    · rw [if_pos hass]
      obtain ⟨ha, hb⟩ := hiff.mp hass
      constructor
      · intro hnone
        split at hnone <;> simp at hnone
      · intro hor
        rcases hor with h | h <;> omega
    · rw [if_neg hass]
      have hn : ¬(snap.undo_len ≤ s.log.length ∧ 0 < s.num_open_snapshots) :=
        fun hc => hass (hiff.mpr hc)
      constructor
      · intro _
        by_contra hc
        push_neg at hc
        exact hn ⟨by omega, by omega⟩
      · intro _
        rfl
  · rw [VecLog.commit]
    by_cases hass : s.assert_open_snapshot snap = true
    · rw [if_pos hass]
      obtain ⟨ha, hb⟩ := hiff.mp hass
      constructor
      · intro hnone
        split at hnone
        · split at hnone
          · simp at hnone
          · right
            right
            constructor
            · assumption
            · assumption
        · simp at hnone
      · intro hor
        rcases hor with h | h | ⟨h1, h2⟩
        · omega
        · omega
        · rw [if_pos h1, if_neg h2]
    · rw [if_neg hass]
      have hn : ¬(snap.undo_len ≤ s.log.length ∧ 0 < s.num_open_snapshots) :=
        fun hc => hass (hiff.mpr hc)
      constructor
      · intro _
        by_contra hc
        push_neg at hc
        exact hn ⟨by omega, by omega⟩
      · intro _
        rfl

/-- C9: frame effects — `push` appends exactly one event at the end and
leaves earlier events and the counter unchanged; `extend` appends the given
events in order and leaves the counter unchanged; `start_snapshot` leaves
the log untouched (and its token records the current length);
`has_changes`, `has_changes_default`, and `actions_since_snapshot` are pure
observers, so applying them never changes the state they are applied to. -/
theorem C9_frame_effects {T : Type} (s : VecLog T) :
    (∀ e, (s.push e).log = s.log ++ [e] ∧
          (s.push e).num_open_snapshots = s.num_open_snapshots) ∧
    (∀ undos : List T,
        (s.extend undos).log = s.log ++ undos ∧
        (s.extend undos).num_open_snapshots = s.num_open_snapshots) ∧
    (s.start_snapshot).2.log = s.log ∧
    (s.start_snapshot).1.undo_len = s.log.length := by
  refine ⟨fun e => ⟨rfl, rfl⟩, fun undos => ?_, rfl, rfl⟩
  rw [VecLog.extend_eq]
  exact ⟨rfl, rfl⟩

/-- C10: `actions_since_snapshot` succeeds, returning the pushed-order
suffix from the token's position, whenever the recorded length is at most
the log length; when the recorded length exceeds the log length the slice
is out of bounds and the call fails, while `has_changes` on the same
invalid token just returns `false`. -/
theorem C10_actions_partiality {T : Type} (s : VecLog T) (snap : Snapshot) :
    (snap.undo_len ≤ s.log.length →
      s.actions_since_snapshot snap = some (s.log.drop snap.undo_len)) ∧
    (s.log.length < snap.undo_len →
      s.actions_since_snapshot snap = none ∧ s.has_changes snap = false) := by
  constructor
  · intro h
    simp [VecLog.actions_since_snapshot, h]
  · intro h
    constructor
    · simp only [VecLog.actions_since_snapshot, ite_eq_right_iff]
      intro hc
      omega
    · simp only [VecLog.has_changes, decide_eq_false_iff_not]
      omega

/-- Witness for C10: a token recorded at length 2 over a length-1 log makes
the slice fail while `has_changes` reports `false`; a token at length 1 over
the same log slices to the empty suffix. -/
theorem C10_actions_partiality_witness :
    ((Snapshot.mk 1).undo_len ≤ (VecLog.mk [4] 0).log.length ∧
      (VecLog.mk ([4] : List Nat) 0).actions_since_snapshot ⟨1⟩ = some []) ∧
    ((VecLog.mk [4] 0).log.length < (Snapshot.mk 2).undo_len ∧
      ((VecLog.mk ([4] : List Nat) 0).actions_since_snapshot ⟨2⟩ = none ∧
        (VecLog.mk ([4] : List Nat) 0).has_changes ⟨2⟩ = false)) :=
  ⟨⟨by decide, (C10_actions_partiality (VecLog.mk [4] 0) ⟨1⟩).1 (by decide)⟩,
   ⟨by decide, (C10_actions_partiality (VecLog.mk [4] 0) ⟨2⟩).2 (by decide)⟩⟩

/-- One operation of the discarding log: the operations C8 ranges over. -/
inductive NoUndoOp (T : Type) where
  | pushOp (e : T)
  | clearOp
  | extendOp (es : List T)

/-- Run a sequence of operations against `NoUndo`. -/
def NoUndo.run {T : Type} (ops : List (NoUndoOp T)) (s : NoUndo) : NoUndo :=
  ops.foldl
    (fun a op =>
      match op with
      | NoUndoOp.pushOp e => a.push e
      | NoUndoOp.clearOp => a.clear
      | NoUndoOp.extendOp es => a.extend es)
    s

/-- C8: after any sequence of `push`, `extend`, and `clear` operations the
discarding log reports zero open snapshots and `in_snapshot = false`, and
the state is exactly the starting state — in particular every `push`
discards its argument, so no event is ever retained. -/
theorem C8_noundo_invariants {T : Type} (ops : List (NoUndoOp T)) (s : NoUndo) :
    NoUndo.run ops s = s ∧
    (NoUndo.run ops s).num_open_snapshots = 0 ∧
    (NoUndo.run ops s).in_snapshot = false ∧
    (∀ e : T, s.push e = s) ∧
    (∀ es : List T, s.extend es = s) := by
  have huniq : ∀ a b : NoUndo, a = b := by
    intro a b
    cases a
    cases b
    rfl
  exact ⟨huniq _ _, rfl, rfl, fun e => rfl, fun es => huniq _ _⟩

/-- One snapshot-layer operation for the stack-discipline claim:
`rollbackOp`/`commitOp` consume the most recently minted outstanding token
(the top of an explicit token stack), which is exactly correct nesting. -/
inductive LogOp (T : Type) where
  | pushOp (e : T)
  | startOp
  | commitOp
  | rollbackOp

/-- Run a correctly nested sequence of operations against a `VecLog`,
threading the stack of outstanding tokens.  `none` means either the
sequence consumed a token with none outstanding (not well nested) or an
operation's `assert!` fired. -/
def runOps {T : Type} : List (LogOp T) → VecLog T → List Snapshot →
    Option (VecLog T × List Snapshot)
  | [], s, stk => some (s, stk)
  | LogOp.pushOp e :: ops, s, stk => runOps ops (s.push e) stk
  | LogOp.startOp :: ops, s, stk =>
      runOps ops (s.start_snapshot).2 ((s.start_snapshot).1 :: stk)
  | LogOp.commitOp :: ops, s, stk =>
      match stk with
      | [] => none
      | snap :: rest => (s.commit snap).bind (fun s2 => runOps ops s2 rest)
  | LogOp.rollbackOp :: ops, s, stk =>
      match stk with
      | [] => none
      | snap :: rest =>
          (s.rollback_to (fun _ => ()) ⟨fun r _ => r⟩ snap).bind
            (fun p => runOps ops p.1 rest)

/-- A successful `commit` implies the counter was positive and drops it by
exactly 1. -/
theorem commit_some_counter {T : Type} (s : VecLog T) (snap : Snapshot)
    (s2 : VecLog T) (h : s.commit snap = some s2) :
    0 < s.num_open_snapshots ∧
    s2.num_open_snapshots = s.num_open_snapshots - 1 := by
  rw [VecLog.commit] at h
  by_cases hass : s.assert_open_snapshot snap = true
  · have hpos : 0 < s.num_open_snapshots := by
      have := hass
      simp [VecLog.assert_open_snapshot] at this
      exact this.2
    rw [if_pos hass] at h
    refine ⟨hpos, ?_⟩
    split at h
    · split at h
      · cases h
        rfl
      · cases h
    · cases h
      rfl
  · rw [if_neg hass] at h
    cases h

/-- A successful `rollback_to` implies the counter was positive and drops it
by exactly 1. -/
theorem rollback_some_counter {T R : Type} (s : VecLog T) (values : Unit → R)
    (rb : Rollback R T) (snap : Snapshot) (p : VecLog T × Option R)
    (h : s.rollback_to values rb snap = some p) :
    0 < s.num_open_snapshots ∧
    p.1.num_open_snapshots = s.num_open_snapshots - 1 := by
  rw [VecLog.rollback_to] at h
  by_cases hass : s.assert_open_snapshot snap = true
  · have hpos : 0 < s.num_open_snapshots := by
      have := hass
      simp [VecLog.assert_open_snapshot] at this
      exact this.2
    rw [if_pos hass] at h
    refine ⟨hpos, ?_⟩
    split at h
    · cases h
      rfl
    · cases h
      rfl
  · rw [if_neg hass] at h
    cases h

/-- The open-snapshot counter tracks the outstanding-token stack exactly,
along every successful run. -/
theorem runOps_counter {T : Type} :
    ∀ (ops : List (LogOp T)) (s : VecLog T) (stk : List Snapshot)
      (s' : VecLog T) (stk' : List Snapshot),
      s.num_open_snapshots = stk.length →
      runOps ops s stk = some (s', stk') →
      s'.num_open_snapshots = stk'.length := by
  intro ops
  induction ops with
  | nil =>
    intro s stk s' stk' hinv hrun
    simp only [runOps, Option.some.injEq, Prod.mk.injEq] at hrun
    rw [← hrun.1, ← hrun.2]
    exact hinv
  | cons op ops ih =>
    intro s stk s' stk' hinv hrun
    cases op with
    | pushOp e =>
      simp only [runOps] at hrun
      exact ih (s.push e) stk s' stk' hinv hrun
    | startOp =>
      simp only [runOps] at hrun
      refine ih _ _ _ _ ?_ hrun
      simp [VecLog.start_snapshot, hinv]
    | commitOp =>
      simp only [runOps] at hrun
      cases stk with
      | nil => cases hrun
      | cons snap rest =>
        simp only [Option.bind_eq_some] at hrun
        obtain ⟨s2, hc, hrun⟩ := hrun
        obtain ⟨hpos, hdec⟩ := commit_some_counter s snap s2 hc
        refine ih _ _ _ _ ?_ hrun
        simp at hinv
        omega
    | rollbackOp =>
      simp only [runOps] at hrun
      cases stk with
      | nil => cases hrun
      | cons snap rest =>
        simp only [Option.bind_eq_some] at hrun
        obtain ⟨p, hc, hrun⟩ := hrun
        obtain ⟨hpos, hdec⟩ := rollback_some_counter s _ _ snap p hc
        refine ih _ _ _ _ ?_ hrun
        simp at hinv
        omega

/-- Runs decompose over concatenation of operation sequences. -/
theorem runOps_append {T : Type} :
    ∀ (pre post : List (LogOp T)) (s : VecLog T) (stk : List Snapshot),
      runOps (pre ++ post) s stk =
        (runOps pre s stk).bind (fun p => runOps post p.1 p.2) := by
  intro pre
  induction pre with
  | nil =>
    intro post s stk
    simp [runOps]
  | cons op pre ih =>
    intro post s stk
    cases op with
    | pushOp e =>
      simp only [List.cons_append, runOps]
      exact ih post _ _
    | startOp =>
      simp only [List.cons_append, runOps]
      exact ih post _ _
    | commitOp =>
      cases stk with
      | nil => rfl
      | cons snap rest =>
        show (s.commit snap).bind (fun s2 => runOps (pre ++ post) s2 rest) =
          ((s.commit snap).bind (fun s2 => runOps pre s2 rest)).bind
            (fun p => runOps post p.1 p.2)
        cases hc : VecLog.commit s snap with
        | none => rfl
        | some s2 => exact ih post s2 rest
    | rollbackOp =>
      cases stk with
      | nil => rfl
      | cons snap rest =>
        show (s.rollback_to (fun _ => ()) ⟨fun r _ => r⟩ snap).bind
            (fun p => runOps (pre ++ post) p.1 rest) =
          ((s.rollback_to (fun _ => ()) ⟨fun r _ => r⟩ snap).bind
            (fun p => runOps pre p.1 rest)).bind
            (fun p => runOps post p.1 p.2)
        cases hc : VecLog.rollback_to s (fun _ => ()) ⟨fun r _ => r⟩ snap with
        | none => rfl
        | some p => exact ih post p.1 rest

/-- C5: `start_snapshot` increments the counter by exactly 1 and mints a
token recording the current log length, unconditionally; every successful
`rollback_to` or `commit` decrements the counter by exactly 1.  For any
correctly nested run (consumption always takes the most recently minted
outstanding token) starting at counter 0, the counter equals the number of
outstanding tokens at every prefix of the run — hence never goes negative —
and returns to 0 once the outermost token is consumed. -/
theorem C5_stack_discipline {T : Type} :
    (∀ s : VecLog T,
        (s.start_snapshot).2.num_open_snapshots = s.num_open_snapshots + 1 ∧
        (s.start_snapshot).1.undo_len = s.log.length) ∧
    (∀ (R : Type) (s : VecLog T) (values : Unit → R) (rb : Rollback R T)
        (snap : Snapshot) (p : VecLog T × Option R),
        s.rollback_to values rb snap = some p →
        p.1.num_open_snapshots + 1 = s.num_open_snapshots) ∧
    (∀ (s : VecLog T) (snap : Snapshot) (s2 : VecLog T),
        s.commit snap = some s2 →
        s2.num_open_snapshots + 1 = s.num_open_snapshots) ∧
    (∀ (ops : List (LogOp T)) (s s' : VecLog T) (stk' : List Snapshot),
        s.num_open_snapshots = 0 → runOps ops s [] = some (s', stk') →
        s'.num_open_snapshots = stk'.length ∧
          (stk' = [] → s'.num_open_snapshots = 0)) ∧
    (∀ (pre post : List (LogOp T)) (s : VecLog T)
        (final : VecLog T × List Snapshot),
        s.num_open_snapshots = 0 → runOps (pre ++ post) s [] = some final →
        ∃ mid : VecLog T × List Snapshot,
          runOps pre s [] = some mid ∧
          mid.1.num_open_snapshots = mid.2.length) := by
  refine ⟨fun s => ⟨rfl, rfl⟩, ?_, ?_, ?_, ?_⟩
  · intro R s values rb snap p h
    obtain ⟨hpos, hdec⟩ := rollback_some_counter s values rb snap p h
    omega
  · intro s snap s2 h
    obtain ⟨hpos, hdec⟩ := commit_some_counter s snap s2 h
    omega
  · intro ops s s' stk' h0 hrun
    have h := runOps_counter ops s [] s' stk' (by simpa using h0) hrun
    exact ⟨h, fun he => by rw [he] at h; simpa using h⟩
  · intro pre post s final h0 hrun
    rw [runOps_append] at hrun
    cases hmid : runOps pre s [] with
    | none => rw [hmid] at hrun; cases hrun
    | some mid =>
      exact ⟨mid, rfl,
        runOps_counter pre s [] mid.1 mid.2 (by simpa using h0)
          (by rw [hmid])⟩

/-- Witness for C5: the run start; push 5; start; rollback; commit from the
default state succeeds, ends with an empty token stack, and the counter is
back to 0. -/
theorem C5_stack_discipline_witness :
    (VecLog.empty Nat).num_open_snapshots = 0 ∧
    runOps [LogOp.startOp, LogOp.pushOp 5, LogOp.startOp, LogOp.rollbackOp,
        LogOp.commitOp] (VecLog.empty Nat) [] =
      some (VecLog.mk [] 0, []) ∧
    ((VecLog.mk ([] : List Nat) 0).num_open_snapshots =
        ([] : List Snapshot).length ∧
      (([] : List Snapshot) = [] →
        (VecLog.mk ([] : List Nat) 0).num_open_snapshots = 0)) :=
  ⟨rfl, rfl,
   (C5_stack_discipline.2.2.2.1
     [LogOp.startOp, LogOp.pushOp 5, LogOp.startOp, LogOp.rollbackOp,
       LogOp.commitOp] (VecLog.empty Nat) (VecLog.mk [] 0) [] rfl rfl)⟩

/-- Witness for C7: with the open-snapshot counter at 0, both consuming
operations fail on a concrete state. -/
theorem C7_failure_conditions_witness :
    (VecLog.mk ([3] : List Nat) 0).rollback_to (fun _ => (0 : Nat))
        ⟨fun r _ => r⟩ ⟨1⟩ = none ∧
    (VecLog.mk ([3] : List Nat) 0).commit ⟨1⟩ = none :=
  ⟨(C7_failure_conditions (VecLog.mk [3] 0) ⟨1⟩ (fun _ => (0 : Nat))
      ⟨fun r _ => r⟩).1.mpr (Or.inr rfl),
   (C7_failure_conditions (VecLog.mk [3] 0) ⟨1⟩ (fun _ => (0 : Nat))
      ⟨fun r _ => r⟩).2.1.mpr (Or.inr (Or.inl rfl))⟩
